import Mathlib

/-!
Shallow embedding of the youtube2obsidian core pipeline (src/main.ts):
the HTML-entity decoder `decodeHtmlEntities`, the transcript cleaner
`cleanTranscript`, the chunk splitter inside `recursiveSummarize`, and the
single-shot/chunked orchestration of `summarizeTranscript`.

JavaScript strings are embedded as lists of UTF-16 code units (`List Nat`),
because the source manipulates code units (`String.fromCharCode` applies
ToUint16, i.e. reduction mod 2^16).  Regex replacement passes are embedded
as left-to-right scanners; each scanner consumes at least one input code
unit per step, so running it with fuel equal to the input length computes
the full JavaScript `String.replace` result.  Numeric string positions in
the splitter are `Int`, matching JavaScript numbers (which may go negative
there); `String.slice` clamping of negative indices is modelled exactly.
Floating point arithmetic in the chunk-count computation is modelled with
exact rational/natural arithmetic, which agrees with the source at every
input used in the theorems below.  Network calls to the OpenAI adapter are
modelled by an explicit list of adapter responses consumed in order, and
the orchestrator additionally returns the list of request payloads it sent,
so that theorems can speak about which requests were issued.
-/

set_option maxRecDepth 100000

/-- A JavaScript string: its list of UTF-16 code units. -/
abbrev JSs := List Nat

/-- Code units of a Lean string literal (all inputs used are BMP text, where
Lean characters and UTF-16 code units coincide). -/
def jstr (s : String) : JSs := s.toList.map Char.toNat

/-- JavaScript whitespace class `\s` (space, tab, LF, VT, FF, CR, NBSP). -/
def isSpaceN (c : Nat) : Bool :=
  c = 32 || c = 9 || c = 10 || c = 11 || c = 12 || c = 13 || c = 160

/-- Digit class `\d`. -/
def isDigitN (c : Nat) : Bool := 48 ≤ c && c ≤ 57

/-- Uppercase ASCII letter, the `[A-Z]` class. -/
def isUpperN (c : Nat) : Bool := 65 ≤ c && c ≤ 90

/-- Lowercase ASCII letter, the `[a-z]` class. -/
def isLowerN (c : Nat) : Bool := 97 ≤ c && c ≤ 122

/-- Word class `\w` = `[A-Za-z0-9_]`. -/
def isWordN (c : Nat) : Bool := isDigitN c || isUpperN c || isLowerN c || c = 95

/-- Sentence terminator class `[.!?]`. -/
def isTermN (c : Nat) : Bool := c = 46 || c = 33 || c = 63

/-- Punctuation class `[.,!?]` used by the cleaner. -/
def isPunctN (c : Nat) : Bool := c = 46 || c = 44 || c = 33 || c = 63

/-- Hex digit class `[0-9a-f]` under the `i` flag. -/
def isHexDigitN (c : Nat) : Bool :=
  isDigitN c || (97 ≤ c && c ≤ 102) || (65 ≤ c && c ≤ 70)

/-- ASCII lowercasing of one code unit (enough for the `i` regex flag and
`toUpperCase`/`toLowerCase` on the ASCII inputs the cleaner handles). -/
def lowerN (c : Nat) : Nat := if isUpperN c then c + 32 else c

/-- ASCII uppercasing of one code unit. -/
def upperN (c : Nat) : Nat := if isLowerN c then c - 32 else c

/-- Case-insensitive equality of code unit lists (regex `i` flag). -/
def eqListCI (a b : JSs) : Bool := a.map lowerN == b.map lowerN

/-- JavaScript `String.prototype.trim`. -/
def jsTrim (s : JSs) : JSs :=
  ((s.dropWhile isSpaceN).reverse.dropWhile isSpaceN).reverse

/-- JavaScript `String.prototype.slice` with possibly negative indices:
negative arguments count from the end, then both are clamped to `[0, len]`,
and an empty string results when start is not before end. -/
def jsSliceI (s : JSs) (a b : Int) : JSs :=
  let L : Int := s.length
  let st : Int := if a < 0 then max (L + a) 0 else min a L
  let en : Int := if b < 0 then max (L + b) 0 else min b L
  if st < en then (s.drop st.toNat).take (en - st).toNat else []

/-- JavaScript `String.prototype.includes`. -/
def jsIncludes : JSs → JSs → Bool
  | [], pat => pat.isEmpty
  | c :: t, pat => pat.isPrefixOf (c :: t) || jsIncludes t pat

/-- Value of `parseInt(ds, 10)` on a nonempty digit string (exact; the
source never feeds it more than a handful of digits, where JavaScript
floats are also exact). -/
def parseDec (ds : JSs) : Nat := ds.foldl (fun a c => a * 10 + (c - 48)) 0

/-- Value of one hex digit. -/
def hexVal (c : Nat) : Nat := if c ≤ 57 then c - 48 else lowerN c - 87

/-- Value of `parseInt(hs, 16)` on a nonempty hex-digit string (exact). -/
def parseHex (hs : JSs) : Nat := hs.foldl (fun a c => a * 16 + hexVal c) 0

/-- Modelled from the spec: the browser `textarea` used by the first
decoder pass is an external DOM collaborator, not code of this repository;
spec section 4.1 step 1 describes that pass as resolving named character
references using a standard HTML entity table, which this table models
(the symbolic entities the caption sources emit). -/
def namedTable : List (JSs × JSs) :=
  [(jstr "amp", [38]), (jstr "lt", [60]), (jstr "gt", [62]),
   (jstr "quot", [34]), (jstr "apos", [39]), (jstr "nbsp", [160])]

/-- Lookup of an entity body (the text between the ampersand and the
semicolon) in the named-entity table. -/
def namedLookup (body : JSs) : Option JSs :=
  (namedTable.find? (fun e => e.fst == body)).map (fun e => e.snd)

/-- First decoder pass, the regex `&([^;]+);` with the textarea callback:
at an ampersand, the greedy `[^;]+` reaches exactly to the first semicolon;
a recognised entity is replaced, an unrecognised one is kept verbatim. -/
def decodeNamedF : Nat → JSs → JSs
  | _, [] => []
  | 0, s => s
  | f + 1, c :: r =>
    if c = 38 then
      match r.dropWhile (fun d => d ≠ 59) with
      | 59 :: tail =>
        if r.takeWhile (fun d => d ≠ 59) = [] then 38 :: decodeNamedF f r
        else
          (match namedLookup (r.takeWhile (fun d => d ≠ 59)) with
           | some rep => rep
           | none => 38 :: r.takeWhile (fun d => d ≠ 59) ++ [59]) ++
            decodeNamedF f tail
      | _ => 38 :: decodeNamedF f r
    else c :: decodeNamedF f r

/-- Second decoder pass, the regex `&#(\d+);` replaced by
`String.fromCharCode(parseInt(dec, 10))`; `fromCharCode` applies ToUint16,
hence the reduction mod 65536. -/
def decodeDecF : Nat → JSs → JSs
  | _, [] => []
  | 0, s => s
  | f + 1, c :: r =>
    if c = 38 then
      match r with
      | 35 :: r2 =>
        (match r2.takeWhile isDigitN, r2.dropWhile isDigitN with
         | _ :: _, 59 :: tail =>
           (parseDec (r2.takeWhile isDigitN) % 65536) :: decodeDecF f tail
         | _, _ => 38 :: decodeDecF f r)
      | _ => 38 :: decodeDecF f r
    else c :: decodeDecF f r

/-- Third decoder pass, the regex `&#x([0-9a-f]+);` with the `i` flag,
replaced by `String.fromCharCode(parseInt(hex, 16))`. -/
def decodeHexF : Nat → JSs → JSs
  | _, [] => []
  | 0, s => s
  | f + 1, c :: r =>
    if c = 38 then
      match r with
      | 35 :: x :: r2 =>
        if lowerN x = 120 then
          (match r2.takeWhile isHexDigitN, r2.dropWhile isHexDigitN with
           | _ :: _, 59 :: tail =>
             (parseHex (r2.takeWhile isHexDigitN) % 65536) :: decodeHexF f tail
           | _, _ => 38 :: decodeHexF f r)
        else 38 :: decodeHexF f r
      | _ => 38 :: decodeHexF f r
    else c :: decodeHexF f r

/-- Decimal and hex alternatives of the apostrophe pattern
`&apos;|&#0*39;|&#x0*27;` (the leading ampersand already consumed):
`#`, optional zeros, then `39;` decimally or `x`/`X`, zeros, `27;`. -/
def aposNum (r : JSs) : Option JSs :=
  match r with
  | 35 :: r1 =>
    (match r1.dropWhile (fun d => d = 48) with
     | 51 :: 57 :: 59 :: tail => some tail
     | _ =>
       match r1 with
       | x :: r2 =>
         if lowerN x = 120 then
           match r2.dropWhile (fun d => d = 48) with
           | 50 :: 55 :: 59 :: tail => some tail
           | _ => none
         else none
       | [] => none)
  | _ => none

/-- Alternation `apos;|#0*39;|#x0*27;` after the ampersand, in source
order, case-insensitively (`i` flag). -/
def aposAlt (r : JSs) : Option JSs :=
  match r with
  | c1 :: c2 :: c3 :: c4 :: 59 :: tail =>
    if lowerN c1 = 97 && lowerN c2 = 112 && lowerN c3 = 111 && lowerN c4 = 115
    then some tail else aposNum r
  | _ => aposNum r

/-- Decimal and hex alternatives of the quote pattern
`&quot;|&#0*34;|&#x0*22;` (ampersand already consumed). -/
def quotNum (r : JSs) : Option JSs :=
  match r with
  | 35 :: r1 =>
    (match r1.dropWhile (fun d => d = 48) with
     | 51 :: 52 :: 59 :: tail => some tail
     | _ =>
       match r1 with
       | x :: r2 =>
         if lowerN x = 120 then
           match r2.dropWhile (fun d => d = 48) with
           | 50 :: 50 :: 59 :: tail => some tail
           | _ => none
         else none
       | [] => none)
  | _ => none

/-- Alternation `quot;|#0*34;|#x0*22;` after the ampersand. -/
def quotAlt (r : JSs) : Option JSs :=
  match r with
  | c1 :: c2 :: c3 :: c4 :: 59 :: tail =>
    if lowerN c1 = 113 && lowerN c2 = 117 && lowerN c3 = 111 && lowerN c4 = 116
    then some tail else quotNum r
  | _ => quotNum r

/-- Fourth-pass scanner for `&apos;|&#0*39;|&#x0*27;` replaced by an
apostrophe. -/
def decodeAposF : Nat → JSs → JSs
  | _, [] => []
  | 0, s => s
  | f + 1, c :: r =>
    if c = 38 then
      match aposAlt r with
      | some tail => 39 :: decodeAposF f tail
      | none => 38 :: decodeAposF f r
    else c :: decodeAposF f r

/-- Fourth-pass scanner for `&quot;|&#0*34;|&#x0*22;` replaced by a
double quote. -/
def decodeQuotF : Nat → JSs → JSs
  | _, [] => []
  | 0, s => s
  | f + 1, c :: r =>
    if c = 38 then
      match quotAlt r with
      | some tail => 34 :: decodeQuotF f tail
      | none => 38 :: decodeQuotF f r
    else c :: decodeQuotF f r

/-- Fourth-pass scanner for `&amp;` (case-insensitive) replaced by an
ampersand. -/
def decodeAmpF : Nat → JSs → JSs
  | _, [] => []
  | 0, s => s
  | f + 1, c :: r =>
    if c = 38 then
      match r with
      | c1 :: c2 :: c3 :: 59 :: tail =>
        if lowerN c1 = 97 && lowerN c2 = 109 && lowerN c3 = 112
        then 38 :: decodeAmpF f tail
        else 38 :: decodeAmpF f r
      | _ => 38 :: decodeAmpF f r
    else c :: decodeAmpF f r

/-- The full `decodeHtmlEntities` of src/main.ts lines 23-49: named pass,
decimal pass, hex pass, then the apostrophe/quote/ampersand passes, each
operating on the output of the previous one. -/
def decodeHtmlEntities (s : JSs) : JSs :=
  let s1 := decodeNamedF s.length s
  let s2 := decodeDecF s1.length s1
  let s3 := decodeHexF s2.length s2
  let s4 := decodeAposF s3.length s3
  let s5 := decodeQuotF s4.length s4
  decodeAmpF s5.length s5

/-- Scanner for `\s+` replaced by a single space (src/main.ts line 56). -/
def collapseWsF : Nat → JSs → JSs
  | _, [] => []
  | 0, s => s
  | f + 1, c :: r =>
    if isSpaceN c then 32 :: collapseWsF f (r.dropWhile isSpaceN)
    else c :: collapseWsF f r

/-- Scanner for a bracketed timestamp `op \d+ : \d+ cl` removed (lines
59-60, with `[`/`]` and `(`/`)` as the delimiters). -/
def stripBrTsF (op cl : Nat) : Nat → JSs → JSs
  | _, [] => []
  | 0, s => s
  | f + 1, c :: r =>
    if c = op then
      match r.takeWhile isDigitN, r.dropWhile isDigitN with
      | _ :: _, 58 :: r2 =>
        (match r2.takeWhile isDigitN, r2.dropWhile isDigitN with
         | _ :: _, c2 :: r4 =>
           if c2 = cl then stripBrTsF op cl f r4
           else c :: stripBrTsF op cl f r
         | _, _ => c :: stripBrTsF op cl f r)
      | _, _ => c :: stripBrTsF op cl f r
    else c :: stripBrTsF op cl f r

/-- Scanner for a bare timestamp `\d+:\d+` removed (line 61). -/
def stripBareTsF : Nat → JSs → JSs
  | _, [] => []
  | 0, s => s
  | f + 1, c :: r =>
    if isDigitN c then
      match (c :: r).dropWhile isDigitN with
      | 58 :: r2 =>
        (match r2.takeWhile isDigitN with
         | _ :: _ => stripBareTsF f (r2.dropWhile isDigitN)
         | [] => c :: stripBareTsF f r)
      | _ => c :: stripBareTsF f r
    else c :: stripBareTsF f r

/-- The separator `[.,!?]?\s+` of the duplicate-word regex: at most one
punctuation mark, then mandatory whitespace; returns the remainder after
the whitespace when it matches. -/
def sepSkip : JSs → Option JSs
  | [] => none
  | p :: r =>
    if isPunctN p then
      match r with
      | q :: _ => if isSpaceN q then some (r.dropWhile isSpaceN) else none
      | [] => none
    else if isSpaceN p then some ((p :: r).dropWhile isSpaceN)
    else none

/-- Scanner for the stutter regex `\b(\w+)[.,!?]?\s+\1\b` (case-insensitive,
global) replaced by the first word (line 66).  The boolean argument tracks
whether the previous code unit was a word character (for `\b`).  After a
match the scan resumes at the end of the match, as JavaScript `lastIndex`
does, so an odd repetition is only collapsed pairwise. -/
def dupWordF : Nat → Bool → JSs → JSs
  | _, _, [] => []
  | 0, _, s => s
  | f + 1, pw, c :: r =>
    if !pw && isWordN c then
      match sepSkip ((c :: r).dropWhile isWordN) with
      | some r2 =>
        if eqListCI (r2.take ((c :: r).takeWhile isWordN).length)
              ((c :: r).takeWhile isWordN)
            && ((c :: r).takeWhile isWordN).length ≤ r2.length
            && (match r2.drop ((c :: r).takeWhile isWordN).length with
                | [] => true
                | d :: _ => !isWordN d) then
          (c :: r).takeWhile isWordN ++
            dupWordF f true (r2.drop ((c :: r).takeWhile isWordN).length)
        else c :: dupWordF f true r
      | none => c :: dupWordF f true r
    else c :: dupWordF f (isWordN c) r

/-- The filler alternatives of line 68 in source order. -/
def fillerList : List JSs :=
  [jstr "um", jstr "uh", jstr "like", jstr "so", jstr "you know",
   jstr "i mean", jstr "basically", jstr "actually", jstr "literally",
   jstr "right", jstr "okay", jstr "well"]

/-- First filler alternative matching case-insensitively at the head of
`s` and followed by a word boundary; returns its length. -/
def matchFiller (s : JSs) : Option Nat :=
  fillerList.findSome? (fun w =>
    if eqListCI (s.take w.length) w && w.length ≤ s.length
        && (match s.drop w.length with | [] => true | d :: _ => !isWordN d)
    then some w.length else none)

/-- Scanner for the filler regex `\b(um|uh|...)\b\s*` removed (line 68). -/
def fillerF : Nat → Bool → JSs → JSs
  | _, _, [] => []
  | 0, _, s => s
  | f + 1, pw, c :: r =>
    if !pw && isWordN c then
      match matchFiller (c :: r) with
      | some k =>
        fillerF f
          (match (c :: r).drop k with
           | x :: _ => !isSpaceN x
           | [] => true)
          (((c :: r).drop k).dropWhile isSpaceN)
      | none => c :: fillerF f true r
    else c :: fillerF f (isWordN c) r

/-- Scanner for the acronym regex `\b([A-Z])\.\s*([A-Z])\.\s*([A-Z])\.`
replaced by the three letters (line 70). -/
def acronymF : Nat → Bool → JSs → JSs
  | _, _, [] => []
  | 0, _, s => s
  | f + 1, pw, c :: r =>
    if !pw && isUpperN c then
      match r with
      | 46 :: r1 =>
        (match r1.dropWhile isSpaceN with
         | u2 :: 46 :: r3 =>
           if isUpperN u2 then
             match r3.dropWhile isSpaceN with
             | u3 :: 46 :: r5 =>
               if isUpperN u3 then c :: u2 :: u3 :: acronymF f false r5
               else c :: acronymF f true r
             | _ => c :: acronymF f true r
           else c :: acronymF f true r
         | _ => c :: acronymF f true r)
      | _ => c :: acronymF f true r
    else c :: acronymF f (isWordN c) r

/-- Scanner for `([.,!?])[.,!?]+` replaced by the first mark (line 72). -/
def punctRunF : Nat → JSs → JSs
  | _, [] => []
  | 0, s => s
  | f + 1, c :: r =>
    if isPunctN c then
      match r with
      | d :: _ =>
        if isPunctN d then c :: punctRunF f (r.dropWhile isPunctN)
        else c :: punctRunF f r
      | [] => [c]
    else c :: punctRunF f r

/-- Scanner for `\s*([.,!?])\s*` replaced by mark-plus-space (line 74). -/
def punctSpaceF : Nat → JSs → JSs
  | _, [] => []
  | 0, s => s
  | f + 1, c :: r =>
    if isSpaceN c then
      match (c :: r).dropWhile isSpaceN with
      | p :: r2 =>
        if isPunctN p then p :: 32 :: punctSpaceF f (r2.dropWhile isSpaceN)
        else c :: punctSpaceF f r
      | [] => c :: punctSpaceF f r
    else if isPunctN c then c :: 32 :: punctSpaceF f (r.dropWhile isSpaceN)
    else c :: punctSpaceF f r

/-- Scanner for `(\w)\s+([A-Z])` replaced by `$1. $2` (line 76). -/
def addPeriodF : Nat → JSs → JSs
  | _, [] => []
  | 0, s => s
  | f + 1, c :: r =>
    if isWordN c then
      match r.takeWhile isSpaceN, r.dropWhile isSpaceN with
      | _ :: _, u :: r2 =>
        if isUpperN u then c :: 46 :: 32 :: u :: addPeriodF f r2
        else c :: addPeriodF f r
      | _, _ => c :: addPeriodF f r
    else c :: addPeriodF f r

/-- Scanner for `\bi\b` replaced by `I` (line 78). -/
def iCapF : Nat → Bool → JSs → JSs
  | _, _, [] => []
  | 0, _, s => s
  | f + 1, pw, c :: r =>
    if !pw && c = 105 && (match r with | [] => true | d :: _ => !isWordN d)
    then 73 :: iCapF f true r
    else c :: iCapF f (isWordN c) r

/-- JavaScript `Array.prototype.join` with a separator. -/
def joinSep (sep : JSs) : List JSs → JSs
  | [] => []
  | [x] => x
  | x :: y :: t => x ++ sep ++ joinSep sep (y :: t)

/-- JavaScript `split(/[.!?]\s+/)` (line 83): the delimiter, one terminator
plus a whitespace run, is removed; the accumulator holds the current
segment reversed. -/
def splitSegF : Nat → JSs → JSs → List JSs
  | _, acc, [] => [acc.reverse]
  | 0, acc, s => [acc.reverse ++ s]
  | f + 1, acc, c :: r =>
    if isTermN c then
      match r with
      | d :: _ =>
        if isSpaceN d then acc.reverse :: splitSegF f [] (r.dropWhile isSpaceN)
        else splitSegF f (c :: acc) r
      | [] => splitSegF f (c :: acc) r
    else splitSegF f (c :: acc) r

/-- Per-segment normalisation of lines 84-91: trim, return empty for an
empty segment, keep a segment whose first space-separated token is all
caps, otherwise uppercase the first code unit. -/
def capSeg (s : JSs) : JSs :=
  match jsTrim s with
  | [] => []
  | c :: r =>
    if ((c :: r).takeWhile (fun d => d ≠ 32)) ≠ []
        && ((c :: r).takeWhile (fun d => d ≠ 32)).all isUpperN
    then c :: r
    else upperN c :: r

/-- Lines 83-92: split on terminator-plus-space, fix each segment, rejoin
with a period and space, trim. -/
def resegment (s : JSs) : JSs :=
  jsTrim (joinSep (jstr ". ") ((splitSegF s.length [] s).map capSeg))

/-- Scanner for `\.\s+` replaced by period-space (line 97). -/
def periodSpaceF : Nat → JSs → JSs
  | _, [] => []
  | 0, s => s
  | f + 1, c :: r =>
    if c = 46 then
      match r with
      | d :: _ =>
        if isSpaceN d then 46 :: 32 :: periodSpaceF f (r.dropWhile isSpaceN)
        else 46 :: periodSpaceF f r
      | [] => [46]
    else c :: periodSpaceF f r

/-- Scanner for `\.\.` replaced by a single period (line 99),
non-overlapping as JavaScript global replace is. -/
def doubleDotF : Nat → JSs → JSs
  | _, [] => []
  | 0, s => s
  | f + 1, 46 :: 46 :: r => 46 :: doubleDotF f r
  | f + 1, c :: r => c :: doubleDotF f r

/-- The full `cleanTranscript` of src/main.ts lines 51-104: decode, then
the regex pipeline in source order, then resegmentation and the final
cleanup. -/
def cleanTranscript (s : JSs) : JSs :=
  let a := decodeHtmlEntities s
  let b := collapseWsF a.length a
  let c := stripBrTsF 91 93 b.length b
  let d := stripBrTsF 40 41 c.length c
  let e := stripBareTsF d.length d
  let g := dupWordF e.length false e
  let h := fillerF g.length false g
  let i := acronymF h.length false h
  let j := punctRunF i.length i
  let k := punctSpaceF j.length j
  let l := addPeriodF k.length k
  let m := iCapF l.length false l
  let n := jsTrim m
  let o := resegment n
  let p := periodSpaceF o.length o
  let q := doubleDotF p.length p
  jsTrim q

/-- Claim-side predicate, written from the claim wording, independent of
the cleaner: some word is immediately followed, across at most one
punctuation mark and whitespace, by a case-insensitive occurrence of the
same word (at word boundaries). -/
def hasAdjDupF : Nat → Bool → JSs → Bool
  | _, _, [] => false
  | 0, _, _ => false
  | f + 1, pw, c :: r =>
    (!pw && isWordN c &&
      (match sepSkip ((c :: r).dropWhile isWordN) with
       | some r2 =>
         eqListCI (r2.take ((c :: r).takeWhile isWordN).length)
             ((c :: r).takeWhile isWordN)
           && ((c :: r).takeWhile isWordN).length ≤ r2.length
           && (match r2.drop ((c :: r).takeWhile isWordN).length with
               | [] => true
               | d :: _ => !isWordN d)
       | none => false)) ||
    hasAdjDupF f (isWordN c) r

/-- A string contains an immediately-adjacent duplicate word. -/
def hasAdjDup (s : JSs) : Bool := hasAdjDupF s.length false s

/-- One chunk emitted by the splitter of `recursiveSummarize`: its span in
the transcript (JavaScript numbers, possibly out of range) and the pushed
trimmed text. -/
structure Chunk where
  startOffset : Int
  endOffset : Int
  text : JSs
deriving DecidableEq

/-- The matches of `searchText.match(/[.!?]\s+/g)` in order (line 366):
a terminator followed by a maximal whitespace run. -/
def sentMatchesF : Nat → JSs → List JSs
  | _, [] => []
  | 0, _ => []
  | f + 1, c :: r =>
    if isTermN c then
      match r with
      | d :: _ =>
        if isSpaceN d then
          (c :: r.takeWhile isSpaceN) :: sentMatchesF f (r.dropWhile isSpaceN)
        else sentMatchesF f r
      | [] => []
    else sentMatchesF f r

/-- JavaScript `hay.lastIndexOf(pat)` (line 369), minus one when absent. -/
def jsLastIndexOf (hay pat : JSs) : Int :=
  match ((List.range (hay.length + 1)).filter
      (fun i => pat.isPrefixOf (hay.drop i))).getLast? with
  | some i => (i : Int)
  | none => -1

/-- Boundary snapping of lines 364-372: search the window
`slice(endPosition - 100, endPosition + 100)` for the last
terminator-plus-space match and move the boundary to its end; the source
assumes the window starts at `endPosition - 100` even when slice clamped a
negative start, which is what makes the arithmetic here unsound. -/
def snapBoundary (text : JSs) (e0 : Int) : Int :=
  match (sentMatchesF (jsSliceI text (e0 - 100) (e0 + 100)).length
      (jsSliceI text (e0 - 100) (e0 + 100))).getLast? with
  | none => e0
  | some m =>
    e0 - 100 + jsLastIndexOf (jsSliceI text (e0 - 100) (e0 + 100)) m +
      (m.length : Int)

/-- The splitting loop of lines 356-376, with fuel: each iteration takes
the even-split endpoint, snaps it when not at the end of the text, pushes
the trimmed slice and continues from the (unchecked) new position.  `none`
means the fuel ran out, i.e. the JavaScript loop has not terminated within
that many iterations. -/
def splitChunksF (text : JSs) (size : Int) : Nat → Int → Option (List Chunk)
  | 0, _ => none
  | f + 1, cp =>
    if cp < (text.length : Int) then
      let e0 : Int := min (cp + size) (text.length : Int)
      let e : Int := if e0 < (text.length : Int) then snapBoundary text e0 else e0
      (splitChunksF text size f e).map
        (fun cs =>
          { startOffset := cp, endOffset := e,
            text := jsTrim (jsSliceI text cp e) } :: cs)
    else some []

/-- Ceiling division on naturals, the exact value of
`Math.ceil(a / b)` for the divisions of lines 350-351. -/
def natCeilDiv (a b : Nat) : Nat := (a + b - 1) / b

/-- Lines 348-351: `numChunks = max(ceil((length / 4) / 12000),
requestedTokens ? ceil(requestedTokens / 12000) : 1)`; a zero
`requestedTokens` is falsy in JavaScript. -/
def numChunksOf (len : Nat) (requestedTokens : Option Nat) : Nat :=
  max (natCeilDiv len 48000)
    (match requestedTokens with
     | none => 1
     | some r => if r = 0 then 1 else natCeilDiv r 12000)

/-- Line 352: `approximateChunkSize = floor(length / numChunks)`. -/
def approxChunkSizeOf (len : Nat) (requestedTokens : Option Nat) : Nat :=
  len / numChunksOf len requestedTokens

/-- The chunk planning of `recursiveSummarize` (lines 346-376) with
explicit fuel for the splitting loop. -/
def chunkPlanF (fuel : Nat) (text : JSs) (requestedTokens : Option Nat) :
    Option (List Chunk) :=
  splitChunksF text (approxChunkSizeOf text.length requestedTokens) fuel 0

/-- Chunk planning with fuel `length + 1`, enough for every terminating
run whose position advances at each iteration. -/
def chunkPlan (text : JSs) (requestedTokens : Option Nat) :
    Option (List Chunk) :=
  chunkPlanF (text.length + 1) text requestedTokens

/-- Concatenation of the pre-trim spans of the planned chunks: the slices
from the start offset of each chunk to its end offset, before trimming. -/
def chunkPlanSpans (text : JSs) (requestedTokens : Option Nat) :
    Option JSs :=
  (chunkPlan text requestedTokens).map
    (fun cs => (cs.map (fun c => jsSliceI text c.startOffset c.endOffset)).flatten)

/-- The 300-unit transcript of the C1 counterexample: ten letters, a
period and a space, then 288 letters. -/
def brokenSplitT : JSs :=
  List.replicate 10 97 ++ [46, 32] ++ List.replicate 288 97

/-- A 200-letter transcript with no sentence terminator. -/
def stuckSplitT : JSs := List.replicate 200 97

/-- One adapter exchange: the service either returns message content (the
`choices[0]?.message?.content` string, empty when absent) or throws an
error carrying a message string. -/
abbrev AdapterResp := Except JSs JSs

/-- Result of the orchestrator: the summary text and whether the chunked
fallback path produced it (`SummaryResult.degraded` of the spec; in the
source this is the information of which return statement ran). -/
structure SummaryOutcome where
  text : JSs
  degraded : Bool
deriving DecidableEq

deriving instance DecidableEq for Except

/-- Extraction of the requested token count by `/Requested (\d+)/` on the
error message (lines 326-327): first occurrence of the literal
`Requested ` followed by at least one digit, maximal digit run. -/
def parseRequestedF : Nat → JSs → Option Nat
  | _, [] => none
  | 0, _ => none
  | f + 1, c :: r =>
    if (jstr "Requested ").isPrefixOf (c :: r) then
      match ((c :: r).drop 10).takeWhile isDigitN with
      | [] => parseRequestedF f r
      | d :: ds => some (parseDec (d :: ds))
    else parseRequestedF f r

/-- Requested-token extraction from a capacity error message. -/
def parseRequested (m : JSs) : Option Nat := parseRequestedF m.length m

/-- The chunk loop of lines 385-419: one request per chunk, consuming one
adapter response each; a thrown error is caught and skipped, and returned
content is pushed only when non-empty (the `if (summary)` truthiness
check).  Returns the successful non-empty summaries in order. -/
def chunkLoop : List Chunk → List AdapterResp → List JSs
  | [], _ => []
  | _ :: cs, [] => chunkLoop cs []
  | _ :: cs, r :: rs =>
    match r with
    | Except.ok c => if c = [] then chunkLoop cs rs else c :: chunkLoop cs rs
    | Except.error _ => chunkLoop cs rs

/-- Error message of line 423. -/
def noChunkSummariesMsg : JSs := jstr "Failed to generate any chunk summaries"

/-- Fallback string of line 448. -/
def failedFinalSentinel : JSs := jstr "Failed to generate summary"

/-- Error message of line 450. -/
def failedFinalMsg : JSs := jstr "Failed to generate final summary"

/-- Stand-in error for an exhausted response list; the real adapter always
answers, and every theorem below supplies enough responses. -/
def noResponseMsg : JSs := jstr "no adapter response"

/-- The user-content payload of the final combination request (line 441). -/
def combinePayload (prompt combined : JSs) : JSs :=
  prompt ++ jstr "\n\nSegment Summaries:\n" ++ combined

/-- The `recursiveSummarize` of lines 340-459, parameterised by the
configured summary prompt and the adapter responses (consumed in order:
one per chunk, then one for the final combination).  Returns `none` when
the splitting loop diverges; otherwise the outcome together with the list
of user-content payloads of the requests issued (chunk texts, then the
combination payload when that request is reached).  The inter-chunk pacing
delay of line 390 has no observable effect in this pure model. -/
def recursiveSummarize (prompt transcript : JSs) (requestedTokens : Option Nat)
    (responses : List AdapterResp) :
    Option (Except JSs SummaryOutcome × List JSs) :=
  (chunkPlan transcript requestedTokens).map (fun cs =>
    let summaries := chunkLoop cs responses
    let reqs := cs.map (fun c => c.text)
    if summaries = [] then (Except.error noChunkSummariesMsg, reqs)
    else
      let fc := combinePayload prompt (joinSep (jstr "\n\n") summaries)
      match (responses.drop cs.length).head? with
      | none => (Except.error noResponseMsg, reqs ++ [fc])
      | some (Except.error e) => (Except.error e, reqs ++ [fc])
      | some (Except.ok c) =>
        if (if c = [] then failedFinalSentinel else c) = failedFinalSentinel
        then (Except.error failedFinalMsg, reqs ++ [fc])
        else (Except.ok ⟨c, true⟩, reqs ++ [fc]))

/-- The single-shot user-content payload (line 294). -/
def singleShotPayload (prompt transcript : JSs) : JSs :=
  prompt ++ jstr "\n\nTranscript:\n" ++ transcript

/-- Placeholder string of line 315. -/
def noSummaryPlaceholder : JSs := jstr "No summary available"

/-- Placeholder fragment checked by line 316. -/
def providePlaceholder : JSs := jstr "Please provide the video transcript"

/-- Error message of line 317. -/
def invalidResponseMsg : JSs :=
  jstr "Failed to generate summary: Invalid response from OpenAI"

/-- Capacity-exceeded marker checked by line 324. -/
def requestTooLargeMsg : JSs := jstr "Request too large"

/-- The `summarizeTranscript` of lines 288-338: one single-shot request;
on success the content is returned (unless empty or a placeholder, which
raises the invalid-response error, caught by the inner catch and
re-thrown because it does not contain `Request too large`); on an error
containing `Request too large` the chunked fallback runs with the parsed
requested-token count; any other error propagates unchanged. -/
def summarizeTranscript (prompt transcript : JSs)
    (responses : List AdapterResp) :
    Option (Except JSs SummaryOutcome × List JSs) :=
  match responses with
  | [] => some (Except.error noResponseMsg, [singleShotPayload prompt transcript])
  | r :: rest =>
    match r with
    | Except.ok c =>
      if (if c = [] then noSummaryPlaceholder else c) = noSummaryPlaceholder
          || jsIncludes (if c = [] then noSummaryPlaceholder else c)
              providePlaceholder
      then some (Except.error invalidResponseMsg,
        [singleShotPayload prompt transcript])
      else some (Except.ok ⟨c, false⟩, [singleShotPayload prompt transcript])
    | Except.error m =>
      if jsIncludes m requestTooLargeMsg then
        (recursiveSummarize prompt transcript (parseRequested m) rest).map
          (fun p => (p.1, singleShotPayload prompt transcript :: p.2))
      else some (Except.error m, [singleShotPayload prompt transcript])

/-- Transcript of 300 letters with no sentence terminator: the splitter
cuts it into three 100-letter chunks when six thousand tokens force three
chunks. -/
def plainT300 : JSs := List.replicate 300 97

/-- A capacity error message carrying a requested-token count. -/
def capacityMsg36000 : JSs := jstr "Request too large. Requested 36000 tokens"

/-- Decimal digit string of `n` (code units), most significant first. -/
def decDigitsAux : Nat → Nat → JSs
  | 0, _ => []
  | f + 1, n =>
    if n < 10 then [48 + n] else decDigitsAux f (n / 10) ++ [48 + n % 10]

/-- Decimal digit string of `n`. -/
def decDigits (n : Nat) : JSs := decDigitsAux (n + 1) n

/-- Lowercase hex digit string of `n`, most significant first. -/
def hexDigitsAux : Nat → Nat → JSs
  | 0, _ => []
  | f + 1, n =>
    if n < 16 then [if n < 10 then 48 + n else 87 + n]
    else hexDigitsAux f (n / 16) ++ [if n % 16 < 10 then 48 + n % 16 else 87 + n % 16]

/-- Lowercase hex digit string of `n`. -/
def hexDigits (n : Nat) : JSs := hexDigitsAux (n + 1) n

/-- The decimal numeric character reference for code point `n`:
ampersand, hash, decimal digits, semicolon. -/
def decNcr (n : Nat) : JSs := 38 :: 35 :: (decDigits n ++ [59])

/-- The hexadecimal numeric character reference for code point `n`. -/
def hexNcr (n : Nat) : JSs := 38 :: 35 :: 120 :: (hexDigits n ++ [59])

/-- Entity syntax in the sense of claim C9: an ampersand with a semicolon
somewhere after it (no decoder pass can fire without one). -/
def hasAmpSemi (s : JSs) : Bool :=
  match s.dropWhile (fun c => c ≠ 38) with
  | [] => false
  | _ :: r => r.contains 59

/-- C1: the claimed splitter guarantee fails on the code: for the
300-unit transcript `brokenSplitT` with a capacity hint of 72000 requested
tokens (six chunks of 50), boundary snapping moves the second boundary
from 100 back to 12, so the spans are neither ordered nor non-overlapping
and the concatenation of the pre-trim spans has 338 units, duplicating
units 12 to 49 of the transcript instead of reproducing it exactly. -/
theorem chunkSpans_not_reconstruction :
    chunkPlanSpans brokenSplitT (some 72000) =
        some (List.replicate 10 97 ++ [46, 32] ++ List.replicate 326 97) ∧
      (List.replicate 10 97 ++ [46, 32] ++ List.replicate 326 97 : JSs) ≠
        brokenSplitT :=
  ⟨by decide, by decide⟩

/-- C2: the splitting loop of the chunked path can fail to make progress
and run forever: on the 200-letter transcript `stuckSplitT` with a
capacity hint of 2400001 requested tokens the computed chunk size is 0,
the boundary search window is empty, and the loop re-visits position 0 at
every iteration, so no amount of fuel completes the plan. -/
theorem chunkPlan_nontermination :
    ∀ fuel, chunkPlanF fuel stuckSplitT (some 2400001) = none := by
  intro fuel
  induction fuel with
  | zero => rfl
  | succ n ih =>
    have h : chunkPlanF (n + 1) stuckSplitT (some 2400001) =
        (chunkPlanF n stuckSplitT (some 2400001)).map
          (fun cs => { startOffset := 0, endOffset := 0, text := [] } :: cs) := rfl
    rw [h, ih]
    rfl

/-- C6: the claim fails on the code: the stutter regex is a single
left-to-right pass that resumes after each match, so a word repeated three
times keeps one adjacent duplicate; cleaning `the the the cat` yields
`The the cat`, which still contains an immediately-adjacent duplicate
word. -/
theorem clean_stutter_counterexample :
    cleanTranscript (jstr "the the the cat") = jstr "The the cat" ∧
      hasAdjDup (cleanTranscript (jstr "the the the cat")) = true :=
  ⟨by decide, by decide⟩

/-- C6 (amended): cleaning collapses adjacent duplicate pairs; on the
claimed instance `the the cat cat sat` the result contains no
immediately-repeated word. -/
theorem clean_stutter_pairs :
    hasAdjDup (cleanTranscript (jstr "the the cat cat sat")) = false := by
  decide

/-- C7: decoding resolves the doubly-encoded apostrophe: the first pass
turns the ampersand entity into `&`, leaving the numeric reference
`&#39;`, which the decimal pass then resolves to the apostrophe. -/
theorem decode_double_encoded_apos :
    decodeHtmlEntities (jstr "&amp;#39;") = [39] := by decide

/-- C8: the claim fails on the code for code points at or above 0x10000:
`String.fromCharCode` truncates to a UTF-16 code unit, so the decimal
reference for 128512 decodes to the single unit 62976 (128512 mod 65536),
not to code point 128512. -/
theorem decode_astral_truncated :
    decodeHtmlEntities (jstr "&#128512;") = [62976] ∧
      decodeHtmlEntities (jstr "&#128512;") ≠ [128512] :=
  ⟨by decide, by decide⟩

/-- C3: the single-shot request is attempted first (its payload heads the
request trace in both branches), the chunked fallback runs exactly when
the single-shot error message contains `Request too large` (with the
requested token count parsed from it), and any other single-shot failure
is returned to the caller unchanged after that single request. -/
theorem summarize_singleshot_dispatch :
    ∀ (prompt transcript m : JSs) (rest : List AdapterResp),
      (jsIncludes m requestTooLargeMsg = true →
        summarizeTranscript prompt transcript (Except.error m :: rest) =
          (recursiveSummarize prompt transcript (parseRequested m) rest).map
            (fun p => (p.1, singleShotPayload prompt transcript :: p.2))) ∧
      (jsIncludes m requestTooLargeMsg = false →
        summarizeTranscript prompt transcript (Except.error m :: rest) =
          some (Except.error m, [singleShotPayload prompt transcript])) := by
  intro prompt transcript m rest
  constructor <;> intro h <;> simp [summarizeTranscript, h]

/-- Witness for C3 at concrete inputs: a non-capacity error propagates
after one request, and a capacity error hands off to the chunked path. -/
theorem summarize_singleshot_dispatch_witness :
    summarizeTranscript (jstr "P") (jstr "t") [Except.error (jstr "boom")] =
        some (Except.error (jstr "boom"),
          [singleShotPayload (jstr "P") (jstr "t")]) ∧
      summarizeTranscript (jstr "P") (jstr "t")
          [Except.error requestTooLargeMsg] =
        (recursiveSummarize (jstr "P") (jstr "t")
            (parseRequested requestTooLargeMsg) []).map
          (fun p => (p.1, singleShotPayload (jstr "P") (jstr "t") :: p.2)) :=
  ⟨(summarize_singleshot_dispatch (jstr "P") (jstr "t") (jstr "boom") []).2
      (by decide),
   (summarize_singleshot_dispatch (jstr "P") (jstr "t") requestTooLargeMsg []).1
      (by decide)⟩

/-- Helper: a successful outcome of the chunked path always carries
`degraded = true` (the only success return of `recursiveSummarize`). -/
theorem recursiveSummarize_degraded (prompt transcript : JSs)
    (rt : Option Nat) (rs : List AdapterResp) (o : SummaryOutcome)
    (tr : List JSs)
    (h : recursiveSummarize prompt transcript rt rs =
      some (Except.ok o, tr)) :
    o.degraded = true := by
  unfold recursiveSummarize at h
  cases hp : chunkPlan transcript rt with
  | none => rw [hp] at h; simp at h
  | some cs =>
    rw [hp] at h
    simp only [Option.map_some', Option.some.injEq] at h
    split at h
    · simp [Prod.ext_iff] at h
    · split at h <;> simp [Prod.ext_iff] at h
      split at h <;> simp [Prod.ext_iff] at h
      obtain ⟨h1, -⟩ := h
      rw [← h1]

/-- Helper: a slice of the whole string is the string. -/
theorem jsSliceI_zero_len (s : JSs) : jsSliceI s 0 (s.length : Int) = s := by
  have hL0 : (0 : Int) ≤ (s.length : Int) := Int.ofNat_nonneg _
  have h2 : ¬ ((s.length : Int) < 0) := not_lt.mpr hL0
  simp only [jsSliceI, lt_self_iff_false, if_false, h2, min_self,
    min_eq_left hL0]
  by_cases hs : (0 : Int) < (s.length : Int)
  · simp [hs]
  · have h0 : s.length = 0 := by omega
    simp [List.eq_nil_of_length_eq_zero h0]

/-- Helper: with no requested-token hint and a transcript of at most
48000 units, the planner emits exactly one chunk spanning the whole
transcript. -/
theorem chunkPlan_one (t : JSs) (h1 : 1 ≤ t.length)
    (h2 : t.length ≤ 48000) :
    chunkPlan t none =
      some [{ startOffset := 0, endOffset := (t.length : Int),
              text := jsTrim t }] := by
  have hn : numChunksOf t.length none = 1 := by
    simp only [numChunksOf, natCeilDiv]
    omega
  have ha : approxChunkSizeOf t.length none = t.length := by
    unfold approxChunkSizeOf
    rw [hn, Nat.div_one]
  obtain ⟨k, hk⟩ : ∃ k, t.length = k + 1 := ⟨t.length - 1, by omega⟩
  have hsl : jsSliceI t 0 ((k + 1 : Nat) : Int) = t := by
    have h := jsSliceI_zero_len t
    rw [hk] at h
    exact h
  have hlt : (0 : Int) < ((k + 1 : Nat) : Int) := by
    exact_mod_cast Nat.succ_pos k
  unfold chunkPlan chunkPlanF
  rw [ha, hk]
  rw [splitChunksF]
  rw [hk, if_pos hlt]
  simp only [zero_add, min_self, lt_self_iff_false, if_false]
  rw [splitChunksF]
  rw [hk]
  simp only [lt_self_iff_false, if_false, Option.map_some', hsl]

/-- C4: the degraded flag reflects the path that produced the summary:
after a capacity-exceeded single-shot failure the result can never be a
non-degraded success, and against an adapter failing the first call with
the capacity message and succeeding afterwards (non-empty contents, the
transcript fitting one chunk) the orchestrator returns the final summary
with `degraded = true`. -/
theorem summarize_degraded_flag :
    ∀ (prompt transcript m s1 s2 : JSs) (rest : List AdapterResp),
      (jsIncludes m requestTooLargeMsg = true →
        ∀ t tr,
          summarizeTranscript prompt transcript (Except.error m :: rest) ≠
            some (Except.ok ⟨t, false⟩, tr)) ∧
      (1 ≤ transcript.length → transcript.length ≤ 48000 →
        s1 ≠ [] → s2 ≠ [] → s2 ≠ failedFinalSentinel →
        summarizeTranscript prompt transcript
            [Except.error requestTooLargeMsg, Except.ok s1, Except.ok s2] =
          some (Except.ok ⟨s2, true⟩,
            [singleShotPayload prompt transcript, jsTrim transcript,
             combinePayload prompt s1])) := by
  intro prompt transcript m s1 s2 rest
  constructor
  · intro h t tr hcontra
    simp only [summarizeTranscript, h, if_true] at hcontra
    rw [Option.map_eq_some'] at hcontra
    obtain ⟨p, hp, hfp⟩ := hcontra
    have hres : p.1 = Except.ok ⟨t, false⟩ := congrArg Prod.fst hfp
    have hdeg := recursiveSummarize_degraded prompt transcript
      (parseRequested m) rest ⟨t, false⟩ p.2 (by rw [hp, ← hres])
    simp at hdeg
  · intro hl hu hs1 hs2 hsent
    have hcap : jsIncludes requestTooLargeMsg requestTooLargeMsg = true := by
      decide
    have hpr : parseRequested requestTooLargeMsg = none := by decide
    simp only [summarizeTranscript, hcap, if_true, hpr]
    unfold recursiveSummarize
    rw [chunkPlan_one transcript hl hu]
    simp only [Option.map_some', List.map_cons, List.map_nil]
    have hloop : chunkLoop
        [⟨0, (transcript.length : Int), jsTrim transcript⟩]
        [Except.ok s1, Except.ok s2] =
        if s1 = [] then [] else [s1] := rfl
    rw [hloop, if_neg hs1]
    rw [if_neg (by simp : ¬ ([s1] : List JSs) = [])]
    simp only [List.length_cons, List.length_nil, List.drop_succ_cons,
      List.drop_zero, List.head?_cons]
    rw [if_neg hs2, if_neg hsent]
    rfl

/-- Witness for C4 at concrete inputs: with the capacity stub the
orchestrator cannot return a non-degraded result, and does return the
degraded final summary. -/
theorem summarize_degraded_flag_witness :
    summarizeTranscript (jstr "P") (jstr "hello")
        [Except.error requestTooLargeMsg] ≠
      some (Except.ok ⟨jstr "x", false⟩, []) ∧
    summarizeTranscript (jstr "P") (jstr "hello")
        [Except.error requestTooLargeMsg, Except.ok (jstr "s"),
         Except.ok (jstr "f")] =
      some (Except.ok ⟨jstr "f", true⟩,
        [singleShotPayload (jstr "P") (jstr "hello"), jsTrim (jstr "hello"),
         combinePayload (jstr "P") (jstr "s")]) :=
  ⟨(summarize_degraded_flag (jstr "P") (jstr "hello") requestTooLargeMsg
      (jstr "s") (jstr "f") []).1 (by decide) (jstr "x") [],
   (summarize_degraded_flag (jstr "P") (jstr "hello") requestTooLargeMsg
      (jstr "s") (jstr "f") []).2 (by decide) (by decide) (by decide)
      (by decide) (by decide)⟩

/-- C5: one failing chunk request does not abort the chunked path: on the
three-chunk transcript `plainT300`, with the request of chunk 2 failing and
chunks 1 and 3 succeeding, all three chunk requests are issued in order,
the final combination payload contains exactly the two successful
summaries in original order separated by a blank line, and the
orchestrator succeeds with the combination result. -/
theorem summarize_partial_tolerance :
    ∀ (prompt s1 m s3 sf : JSs),
      s1 ≠ [] → s3 ≠ [] → sf ≠ [] → sf ≠ failedFinalSentinel →
      summarizeTranscript prompt plainT300
          [Except.error capacityMsg36000, Except.ok s1, Except.error m,
           Except.ok s3, Except.ok sf] =
        some (Except.ok ⟨sf, true⟩,
          [singleShotPayload prompt plainT300, List.replicate 100 97,
           List.replicate 100 97, List.replicate 100 97,
           combinePayload prompt (s1 ++ jstr "\n\n" ++ s3)]) := by
  intro prompt s1 m s3 sf h1 h3 hf hsent
  have hcap : jsIncludes capacityMsg36000 requestTooLargeMsg = true := by
    decide
  have hpr : parseRequested capacityMsg36000 = some 36000 := by decide
  simp only [summarizeTranscript, hcap, if_true, hpr]
  unfold recursiveSummarize
  have hplan : chunkPlan plainT300 (some 36000) =
      some [⟨0, 100, List.replicate 100 97⟩,
            ⟨100, 200, List.replicate 100 97⟩,
            ⟨200, 300, List.replicate 100 97⟩] := by decide
  rw [hplan]
  simp only [Option.map_some', List.map_cons, List.map_nil,
    List.length_cons, List.length_nil]
  have hloop : chunkLoop
      [⟨0, 100, List.replicate 100 97⟩, ⟨100, 200, List.replicate 100 97⟩,
       ⟨200, 300, List.replicate 100 97⟩]
      [Except.ok s1, Except.error m, Except.ok s3, Except.ok sf] =
      if s1 = [] then (if s3 = [] then [] else [s3])
      else s1 :: (if s3 = [] then [] else [s3]) := rfl
  rw [hloop, if_neg h1, if_neg h3]
  rw [if_neg (by simp : ¬ (s1 :: [s3]) = [])]
  have hdrop : (([Except.ok s1, Except.error m, Except.ok s3,
      Except.ok sf] : List AdapterResp).drop (0 + 1 + 1 + 1)).head? =
      some (Except.ok sf) := rfl
  rw [hdrop]
  simp only [hf, hsent, ite_false, if_false]
  rfl

/-- Witness for C5 at concrete chunk summaries. -/
theorem summarize_partial_tolerance_witness :
    summarizeTranscript (jstr "P") plainT300
        [Except.error capacityMsg36000, Except.ok (jstr "one"),
         Except.error (jstr "boom"), Except.ok (jstr "three"),
         Except.ok (jstr "final")] =
      some (Except.ok ⟨jstr "final", true⟩,
        [singleShotPayload (jstr "P") plainT300, List.replicate 100 97,
         List.replicate 100 97, List.replicate 100 97,
         combinePayload (jstr "P")
           (jstr "one" ++ jstr "\n\n" ++ jstr "three")]) :=
  summarize_partial_tolerance (jstr "P") (jstr "one") (jstr "boom")
    (jstr "three") (jstr "final") (by decide) (by decide) (by decide)
    (by decide)

/-- C10: in the chunked path a successful request whose content is empty
is dropped exactly like a failed one: on the three-chunk transcript
`plainT300`, empty contents for chunks 1 and 3 leave only the chunk 2
summary in the combination payload; and when every chunk returns empty
content the orchestrator fails with the no-chunk-summaries error although
no request raised an error. -/
theorem chunked_empty_content_dropped :
    ∀ (prompt s sf : JSs),
      s ≠ [] → sf ≠ [] → sf ≠ failedFinalSentinel →
      (recursiveSummarize prompt plainT300 (some 36000)
          [Except.ok [], Except.ok s, Except.ok [], Except.ok sf] =
        some (Except.ok ⟨sf, true⟩,
          [List.replicate 100 97, List.replicate 100 97,
           List.replicate 100 97, combinePayload prompt s])) ∧
      recursiveSummarize prompt plainT300 (some 36000)
          [Except.ok [], Except.ok [], Except.ok []] =
        some (Except.error noChunkSummariesMsg,
          [List.replicate 100 97, List.replicate 100 97,
           List.replicate 100 97]) := by
  intro prompt s sf hs hf hsent
  have hplan : chunkPlan plainT300 (some 36000) =
      some [⟨0, 100, List.replicate 100 97⟩,
            ⟨100, 200, List.replicate 100 97⟩,
            ⟨200, 300, List.replicate 100 97⟩] := by decide
  constructor
  · unfold recursiveSummarize
    rw [hplan]
    simp only [Option.map_some', List.map_cons, List.map_nil,
      List.length_cons, List.length_nil]
    have hloop : chunkLoop
        [⟨0, 100, List.replicate 100 97⟩, ⟨100, 200, List.replicate 100 97⟩,
         ⟨200, 300, List.replicate 100 97⟩]
        [Except.ok [], Except.ok s, Except.ok [], Except.ok sf] =
        if s = [] then [] else [s] := rfl
    rw [hloop, if_neg hs]
    rw [if_neg (by simp : ¬ ([s] : List JSs) = [])]
    have hdrop : (([Except.ok [], Except.ok s, Except.ok [],
        Except.ok sf] : List AdapterResp).drop (0 + 1 + 1 + 1)).head? =
        some (Except.ok sf) := rfl
    rw [hdrop]
    simp only [hf, hsent, ite_false, if_false]
    rfl
  · unfold recursiveSummarize
    rw [hplan]
    rfl

/-- Witness for C10 at a concrete chunk summary. -/
theorem chunked_empty_content_dropped_witness :
    recursiveSummarize (jstr "P") plainT300 (some 36000)
        [Except.ok [], Except.ok (jstr "mid"), Except.ok [],
         Except.ok (jstr "fin")] =
      some (Except.ok ⟨jstr "fin", true⟩,
        [List.replicate 100 97, List.replicate 100 97, List.replicate 100 97,
         combinePayload (jstr "P") (jstr "mid")]) ∧
    recursiveSummarize (jstr "P") plainT300 (some 36000)
        [Except.ok [], Except.ok [], Except.ok []] =
      some (Except.error noChunkSummariesMsg,
        [List.replicate 100 97, List.replicate 100 97,
         List.replicate 100 97]) :=
  ⟨(chunked_empty_content_dropped (jstr "P") (jstr "mid") (jstr "fin")
      (by decide) (by decide) (by decide)).1,
   (chunked_empty_content_dropped (jstr "P") (jstr "mid") (jstr "fin")
      (by decide) (by decide) (by decide)).2⟩

/-- Helper: absence of a unit is inherited by `dropWhile`. -/
theorem contains_false_dropWhile (l : JSs) (p : Nat → Bool) (a : Nat)
    (h : l.contains a = false) : (l.dropWhile p).contains a = false := by
  simp only [List.contains] at *
  simp at h ⊢
  intro hm
  exact h ((List.dropWhile_sublist p).mem hm)

/-- Helper: absence of a unit is inherited by the tail. -/
theorem contains_false_tail (c a : Nat) (l : JSs)
    (h : (c :: l).contains a = false) : l.contains a = false := by
  simp at h ⊢
  exact h.2

/-- Helper: the head differs from an absent unit. -/
theorem contains_false_head (c a : Nat) (l : JSs)
    (h : (c :: l).contains a = false) : c ≠ a := by
  simp at h
  exact fun he => h.1 he.symm

/-- Helper: with no semicolon present, dropping up to a semicolon drops
everything. -/
theorem dropWhile_ne_semi_eq_nil (l : JSs) (h : l.contains 59 = false) :
    l.dropWhile (fun d => d ≠ 59) = [] := by
  have h' : (59 : Nat) ∉ l := by simpa using h
  rw [List.dropWhile_eq_nil_iff]
  intro x hx
  simp only [ne_eq, decide_not, Bool.not_eq_true', decide_eq_false_iff_not]
  intro he
  exact h' (he ▸ hx)

/-- Helper: entity syntax ignores a non-ampersand head. -/
theorem hasAmpSemi_cons_ne (c : Nat) (r : JSs) (hc : c ≠ 38) :
    hasAmpSemi (c :: r) = hasAmpSemi r := by
  unfold hasAmpSemi
  rw [List.dropWhile_cons]
  simp [hc]

/-- Helper: a string without semicolons has no entity syntax. -/
theorem hasAmpSemi_of_no_semi (l : JSs) (h : l.contains 59 = false) :
    hasAmpSemi l = false := by
  induction l with
  | nil => rfl
  | cons c r ih =>
    by_cases hc : c = 38
    · subst hc
      exact contains_false_tail 38 59 r h
    · rw [hasAmpSemi_cons_ne c r hc]
      exact ih (contains_false_tail c 59 r h)

/-- Helper: after an ampersand head, no entity syntax means no semicolon
in the tail (definitionally). -/
theorem no_semi_after_amp (r : JSs) (h : hasAmpSemi (38 :: r) = false) :
    r.contains 59 = false := h

/-- Helper: no entity syntax is inherited past a non-ampersand head. -/
theorem hasAmpSemi_tail (c : Nat) (r : JSs) (hc : c ≠ 38)
    (h : hasAmpSemi (c :: r) = false) : hasAmpSemi r = false := by
  rw [hasAmpSemi_cons_ne c r hc] at h
  exact h

/-- Helper: the named pass is the identity without entity syntax. -/
theorem decodeNamedF_id (f : Nat) (s : JSs) (h : hasAmpSemi s = false) :
    decodeNamedF f s = s := by
  induction s generalizing f with
  | nil => cases f <;> rfl
  | cons c r ih =>
    cases f with
    | zero => rfl
    | succ g =>
      by_cases hc : c = 38
      · subst hc
        have hns := no_semi_after_amp r h
        have hr := hasAmpSemi_of_no_semi r hns
        simp only [decodeNamedF, eq_self_iff_true, if_true,
          dropWhile_ne_semi_eq_nil r hns]
        rw [ih g hr]
      · simp only [decodeNamedF, if_neg hc]
        rw [ih g (hasAmpSemi_tail c r hc h)]

/-- Helper: the decimal pass is the identity without entity syntax. -/
theorem decodeDecF_id (f : Nat) (s : JSs) (h : hasAmpSemi s = false) :
    decodeDecF f s = s := by
  induction s generalizing f with
  | nil => cases f <;> rfl
  | cons c r ih =>
    cases f with
    | zero => rfl
    | succ g =>
      by_cases hc : c = 38
      · subst hc
        have hns := no_semi_after_amp r h
        have hr := hasAmpSemi_of_no_semi r hns
        simp only [decodeDecF, eq_self_iff_true, if_true]
        split
        · rename_i r2
          have h2 : (r2.dropWhile isDigitN).contains 59 = false :=
            contains_false_dropWhile r2 isDigitN 59
              (contains_false_tail 35 59 r2 hns)
          split
          · rename_i heq1 heq2
            rw [heq2] at h2
            simp at h2
          · rw [ih g hr]
        · rw [ih g hr]
      · simp only [decodeDecF, if_neg hc]
        rw [ih g (hasAmpSemi_tail c r hc h)]

/-- Helper: the hex pass is the identity without entity syntax. -/
theorem decodeHexF_id (f : Nat) (s : JSs) (h : hasAmpSemi s = false) :
    decodeHexF f s = s := by
  induction s generalizing f with
  | nil => cases f <;> rfl
  | cons c r ih =>
    cases f with
    | zero => rfl
    | succ g =>
      by_cases hc : c = 38
      · subst hc
        have hns := no_semi_after_amp r h
        have hr := hasAmpSemi_of_no_semi r hns
        simp only [decodeHexF, eq_self_iff_true, if_true]
        split
        · rename_i x r2
          have h2 : (r2.dropWhile isHexDigitN).contains 59 = false :=
            contains_false_dropWhile r2 isHexDigitN 59
              (contains_false_tail x 59 r2
                (contains_false_tail 35 59 (x :: r2) hns))
          split
          · split
            · rename_i heq1 heq2
              rw [heq2] at h2
              simp at h2
            · rw [ih g hr]
          · rw [ih g hr]
        · rw [ih g hr]
      · simp only [decodeHexF, if_neg hc]
        rw [ih g (hasAmpSemi_tail c r hc h)]

/-- Helper: the decimal and hex apostrophe alternatives cannot match
without a semicolon. -/
theorem aposNum_none (r : JSs) (h : r.contains 59 = false) :
    aposNum r = none := by
  unfold aposNum
  split
  · rename_i r1
    have h1 : r1.contains 59 = false := contains_false_tail 35 59 r1 h
    have h2 : (r1.dropWhile (fun d => d = 48)).contains 59 = false :=
      contains_false_dropWhile r1 (fun d => d = 48) 59 h1
    split
    · rename_i tail heq
      rw [heq] at h2
      simp at h2
    · split
      · rename_i x r2 hnomatch
        have h3 : r2.contains 59 = false := contains_false_tail x 59 r2 h1
        have h4 : (r2.dropWhile (fun d => d = 48)).contains 59 = false :=
          contains_false_dropWhile r2 (fun d => d = 48) 59 h3
        split
        · split
          · rename_i tail heq2
            rw [heq2] at h4
            simp at h4
          · rfl
        · rfl
      · rfl
  · rfl

/-- Helper: the apostrophe alternation cannot match without a
semicolon. -/
theorem aposAlt_none (r : JSs) (h : r.contains 59 = false) :
    aposAlt r = none := by
  unfold aposAlt
  split
  · simp at h
  · exact aposNum_none _ h

/-- Helper: the decimal and hex quote alternatives cannot match without a
semicolon. -/
theorem quotNum_none (r : JSs) (h : r.contains 59 = false) :
    quotNum r = none := by
  unfold quotNum
  split
  · rename_i r1
    have h1 : r1.contains 59 = false := contains_false_tail 35 59 r1 h
    have h2 : (r1.dropWhile (fun d => d = 48)).contains 59 = false :=
      contains_false_dropWhile r1 (fun d => d = 48) 59 h1
    split
    · rename_i tail heq
      rw [heq] at h2
      simp at h2
    · split
      · rename_i x r2 hnomatch
        have h3 : r2.contains 59 = false := contains_false_tail x 59 r2 h1
        have h4 : (r2.dropWhile (fun d => d = 48)).contains 59 = false :=
          contains_false_dropWhile r2 (fun d => d = 48) 59 h3
        split
        · split
          · rename_i tail heq2
            rw [heq2] at h4
            simp at h4
          · rfl
        · rfl
      · rfl
  · rfl

/-- Helper: the quote alternation cannot match without a semicolon. -/
theorem quotAlt_none (r : JSs) (h : r.contains 59 = false) :
    quotAlt r = none := by
  unfold quotAlt
  split
  · simp at h
  · exact quotNum_none _ h

/-- Helper: the apostrophe pass is the identity without entity syntax. -/
theorem decodeAposF_id (f : Nat) (s : JSs) (h : hasAmpSemi s = false) :
    decodeAposF f s = s := by
  induction s generalizing f with
  | nil => cases f <;> rfl
  | cons c r ih =>
    cases f with
    | zero => rfl
    | succ g =>
      by_cases hc : c = 38
      · subst hc
        have hns := no_semi_after_amp r h
        simp only [decodeAposF, eq_self_iff_true, if_true, aposAlt_none r hns]
        rw [ih g (hasAmpSemi_of_no_semi r hns)]
      · simp only [decodeAposF, if_neg hc]
        rw [ih g (hasAmpSemi_tail c r hc h)]

/-- Helper: the quote pass is the identity without entity syntax. -/
theorem decodeQuotF_id (f : Nat) (s : JSs) (h : hasAmpSemi s = false) :
    decodeQuotF f s = s := by
  induction s generalizing f with
  | nil => cases f <;> rfl
  | cons c r ih =>
    cases f with
    | zero => rfl
    | succ g =>
      by_cases hc : c = 38
      · subst hc
        have hns := no_semi_after_amp r h
        simp only [decodeQuotF, eq_self_iff_true, if_true, quotAlt_none r hns]
        rw [ih g (hasAmpSemi_of_no_semi r hns)]
      · simp only [decodeQuotF, if_neg hc]
        rw [ih g (hasAmpSemi_tail c r hc h)]

/-- Helper: the ampersand pass is the identity without entity syntax. -/
theorem decodeAmpF_id (f : Nat) (s : JSs) (h : hasAmpSemi s = false) :
    decodeAmpF f s = s := by
  induction s generalizing f with
  | nil => cases f <;> rfl
  | cons c r ih =>
    cases f with
    | zero => rfl
    | succ g =>
      by_cases hc : c = 38
      · subst hc
        have hns := no_semi_after_amp r h
        have hr := hasAmpSemi_of_no_semi r hns
        simp only [decodeAmpF, eq_self_iff_true, if_true]
        split
        · simp at hns
        · rw [ih g hr]
      · simp only [decodeAmpF, if_neg hc]
        rw [ih g (hasAmpSemi_tail c r hc h)]

/-- C9: decoding is idempotent on already-decoded text: on an ASCII-only
string with no entity syntax (no ampersand followed later by a semicolon)
every pass is the identity, so `decode (decode x) = decode x`. -/
theorem decode_idempotent_no_entities :
    ∀ x : JSs, (∀ c ∈ x, c < 128) → hasAmpSemi x = false →
      decodeHtmlEntities (decodeHtmlEntities x) = decodeHtmlEntities x := by
  intro x _hascii h
  have hid : decodeHtmlEntities x = x := by
    simp only [decodeHtmlEntities]
    rw [decodeNamedF_id _ _ h, decodeDecF_id _ _ h, decodeHexF_id _ _ h,
      decodeAposF_id _ _ h, decodeQuotF_id _ _ h, decodeAmpF_id _ _ h]
  rw [hid, hid]

/-- Witness for C9 on a concrete already-decoded string. -/
theorem decode_idempotent_no_entities_witness :
    hasAmpSemi (jstr "hello world") = false ∧
      decodeHtmlEntities (decodeHtmlEntities (jstr "hello world")) =
        decodeHtmlEntities (jstr "hello world") :=
  ⟨by decide,
   decode_idempotent_no_entities (jstr "hello world") (by decide) (by decide)⟩

/-- Helper: `takeWhile` over a satisfying prefix stops at the appended
failing unit. -/
theorem takeWhile_append_stop (p : Nat → Bool) (l : JSs) (a : Nat) (t : JSs)
    (hl : ∀ c ∈ l, p c = true) (ha : p a = false) :
    (l ++ a :: t).takeWhile p = l := by
  induction l with
  | nil => simp [List.takeWhile_cons, ha]
  | cons c r ih =>
    have hc : p c = true := hl c (List.mem_cons_self c r)
    simp [List.takeWhile_cons, hc,
      ih (fun d hd => hl d (List.mem_cons_of_mem c hd))]

/-- Helper: `dropWhile` over a satisfying prefix stops at the appended
failing unit. -/
theorem dropWhile_append_stop (p : Nat → Bool) (l : JSs) (a : Nat) (t : JSs)
    (hl : ∀ c ∈ l, p c = true) (ha : p a = false) :
    (l ++ a :: t).dropWhile p = a :: t := by
  induction l with
  | nil => simp [List.dropWhile_cons, ha]
  | cons c r ih =>
    have hc : p c = true := hl c (List.mem_cons_self c r)
    simp [List.dropWhile_cons, hc,
      ih (fun d hd => hl d (List.mem_cons_of_mem c hd))]

/-- Helper: every unit of a rendered decimal number is a digit. -/
theorem decDigitsAux_all_digit :
    ∀ f n c, c ∈ decDigitsAux f n → isDigitN c = true := by
  intro f
  induction f with
  | zero => intro n c hc; simp [decDigitsAux] at hc
  | succ g ih =>
    intro n c hc
    by_cases h10 : n < 10
    · simp [decDigitsAux, h10] at hc
      unfold isDigitN
      subst hc
      simp
      omega
    · simp only [decDigitsAux, h10, if_false, List.mem_append,
        List.mem_singleton] at hc
      rcases hc with hc | hc
      · exact ih (n / 10) c hc
      · unfold isDigitN
        subst hc
        simp
        omega

/-- Helper: every unit of a rendered hex number is a hex digit. -/
theorem hexDigitsAux_all_hex :
    ∀ f n c, c ∈ hexDigitsAux f n → isHexDigitN c = true := by
  intro f
  induction f with
  | zero => intro n c hc; simp [hexDigitsAux] at hc
  | succ g ih =>
    intro n c hc
    by_cases h16 : n < 16
    · simp [hexDigitsAux, h16] at hc
      unfold isHexDigitN isDigitN
      subst hc
      by_cases h10 : n < 10 <;> simp [h10] <;> omega
    · simp only [hexDigitsAux, h16, if_false, List.mem_append,
        List.mem_singleton] at hc
      rcases hc with hc | hc
      · exact ih (n / 16) c hc
      · unfold isHexDigitN isDigitN
        subst hc
        have h10 : n % 16 < 16 := Nat.mod_lt n (by omega)
        by_cases hlt : n % 16 < 10 <;> simp [hlt] <;> omega

/-- Helper: rendered digit strings are nonempty. -/
theorem decDigits_ne_nil (n : Nat) : decDigits n ≠ [] := by
  unfold decDigits decDigitsAux
  by_cases h10 : n < 10 <;> simp [h10]

/-- Helper: rendered hex strings are nonempty. -/
theorem hexDigits_ne_nil (n : Nat) : hexDigits n ≠ [] := by
  unfold hexDigits hexDigitsAux
  by_cases h16 : n < 16 <;> simp [h16]

/-- Helper: parsing after appending one digit. -/
theorem parseDec_append_digit (l : JSs) (c : Nat) :
    parseDec (l ++ [c]) = parseDec l * 10 + (c - 48) := by
  unfold parseDec
  rw [List.foldl_append]
  rfl

/-- Helper: parsing after appending one hex digit. -/
theorem parseHex_append_digit (l : JSs) (c : Nat) :
    parseHex (l ++ [c]) = parseHex l * 16 + hexVal c := by
  unfold parseHex
  rw [List.foldl_append]
  rfl

/-- Helper: value of a low hex digit unit. -/
theorem hexVal_low (m : Nat) (hm : m < 10) : hexVal (48 + m) = m := by
  unfold hexVal
  rw [if_pos (by omega)]
  omega

/-- Helper: value of a high hex digit unit. -/
theorem hexVal_high (m : Nat) (h1 : 10 ≤ m) (h2 : m < 16) :
    hexVal (87 + m) = m := by
  have hup : isUpperN (87 + m) = false := by
    unfold isUpperN
    simp
    omega
  unfold hexVal lowerN
  rw [if_neg (by omega), hup]
  simp

/-- Helper: parsing inverts decimal rendering. -/
theorem parseDec_decDigitsAux (f : Nat) :
    ∀ n, n ≤ f → parseDec (decDigitsAux (f + 1) n) = n := by
  induction f with
  | zero =>
    intro n hn
    have h0 : n = 0 := by omega
    subst h0
    decide
  | succ g ih =>
    intro n hn
    have hstep : decDigitsAux (g + 1 + 1) n =
        (if n < 10 then [48 + n]
         else decDigitsAux (g + 1) (n / 10) ++ [48 + n % 10]) := rfl
    by_cases h10 : n < 10
    · rw [hstep, if_pos h10]
      unfold parseDec
      simp
    · rw [hstep, if_neg h10, parseDec_append_digit, ih (n / 10) (by omega)]
      omega

/-- Helper: parsing inverts decimal rendering. -/
theorem parseDec_decDigits (n : Nat) : parseDec (decDigits n) = n :=
  parseDec_decDigitsAux n n le_rfl

/-- Helper: parsing one hex digit unit. -/
theorem parseHex_single (c : Nat) : parseHex [c] = hexVal c := by
  unfold parseHex
  simp

/-- Helper: parsing inverts hex rendering. -/
theorem parseHex_hexDigitsAux (f : Nat) :
    ∀ n, n ≤ f → parseHex (hexDigitsAux (f + 1) n) = n := by
  induction f with
  | zero =>
    intro n hn
    have h0 : n = 0 := by omega
    subst h0
    decide
  | succ g ih =>
    intro n hn
    have hstep : hexDigitsAux (g + 1 + 1) n =
        (if n < 16 then [if n < 10 then 48 + n else 87 + n]
         else hexDigitsAux (g + 1) (n / 16) ++
           [if n % 16 < 10 then 48 + n % 16 else 87 + n % 16]) := rfl
    by_cases h16 : n < 16
    · rw [hstep, if_pos h16]
      by_cases h10 : n < 10
      · rw [if_pos h10, parseHex_single, hexVal_low n h10]
      · rw [if_neg h10, parseHex_single, hexVal_high n (by omega) h16]
    · rw [hstep, if_neg h16, parseHex_append_digit, ih (n / 16) (by omega)]
      by_cases h10 : n % 16 < 10
      · rw [if_pos h10, hexVal_low _ h10]
        omega
      · rw [if_neg h10, hexVal_high _ (by omega) (Nat.mod_lt n (by omega))]
        omega

/-- Helper: parsing inverts hex rendering. -/
theorem parseHex_hexDigits (n : Nat) : parseHex (hexDigits n) = n :=
  parseHex_hexDigitsAux n n le_rfl

/-- Helper: the named pass on an empty string. -/
theorem decodeNamedF_nil (f : Nat) : decodeNamedF f [] = [] := by
  cases f <;> rfl

/-- Helper: the decimal pass on an empty string. -/
theorem decodeDecF_nil (f : Nat) : decodeDecF f [] = [] := by
  cases f <;> rfl

/-- Helper: the hex pass on an empty string. -/
theorem decodeHexF_nil (f : Nat) : decodeHexF f [] = [] := by
  cases f <;> rfl

/-- Helper: a hash-headed entity body is not in the named table. -/
theorem namedLookup_hash (l : JSs) : namedLookup (35 :: l) = none := rfl

/-- Helper: one step of the named pass at an ampersand whose entity body
and closing semicolon are known. -/
theorem decodeNamedF_amp (f : Nat) (R body tail : JSs)
    (ht : R.takeWhile (fun d => d ≠ 59) = body)
    (hd : R.dropWhile (fun d => d ≠ 59) = 59 :: tail)
    (hb : ¬ body = []) :
    decodeNamedF (f + 1) (38 :: R) =
      (match namedLookup body with
       | some rep => rep
       | none => 38 :: body ++ [59]) ++ decodeNamedF f tail := by
  simp only [decodeNamedF, eq_self_iff_true, if_true, ht, hd]
  rw [if_neg hb]

/-- Helper: the named pass keeps an unrecognised hash entity verbatim. -/
theorem decodeNamedF_hash (rest : JSs) (f : Nat)
    (hr : ∀ c ∈ rest, c ≠ 59) :
    decodeNamedF (f + 1) (38 :: 35 :: (rest ++ [59])) =
      38 :: 35 :: (rest ++ [59]) := by
  have hall : ∀ c ∈ (35 :: rest : JSs), c ≠ 59 := by
    intro c hc
    rcases List.mem_cons.mp hc with h | h
    · omega
    · exact hr c h
  have ht : (35 :: (rest ++ [59]) : JSs).takeWhile (fun d => d ≠ 59) =
      35 :: rest := by
    have h := takeWhile_append_stop (fun d => d ≠ 59) (35 :: rest) 59 []
      (fun c hc => by simpa using hall c hc) (by decide)
    simpa using h
  have hd : (35 :: (rest ++ [59]) : JSs).dropWhile (fun d => d ≠ 59) =
      59 :: [] := by
    have h := dropWhile_append_stop (fun d => d ≠ 59) (35 :: rest) 59 []
      (fun c hc => by simpa using hall c hc) (by decide)
    simpa using h
  rw [decodeNamedF_amp f (35 :: (rest ++ [59])) (35 :: rest) [] ht hd
    (by simp)]
  simp [namedLookup_hash, decodeNamedF_nil]

/-- Helper: one step of the decimal pass at a hash entity whose digit run
and closing semicolon are known. -/
theorem decodeDecF_hash (f : Nat) (r2 : JSs) (d : Nat) (ds tail : JSs)
    (ht : r2.takeWhile isDigitN = d :: ds)
    (hd : r2.dropWhile isDigitN = 59 :: tail) :
    decodeDecF (f + 1) (38 :: 35 :: r2) =
      (parseDec (d :: ds) % 65536) :: decodeDecF f tail := by
  simp only [decodeDecF, eq_self_iff_true, if_true, ht, hd]

/-- Helper: the decimal pass resolves the rendered decimal reference. -/
theorem decodeDecF_ncr (n f : Nat) :
    decodeDecF (f + 1) (decNcr n) = [n % 65536] := by
  have hall : ∀ c ∈ decDigits n, isDigitN c = true :=
    fun c hc => decDigitsAux_all_digit (n + 1) n c hc
  obtain ⟨d, ds, hds⟩ : ∃ d ds, decDigits n = d :: ds := by
    rcases hh : decDigits n with - | ⟨d, ds⟩
    · exact absurd hh (decDigits_ne_nil n)
    · exact ⟨d, ds, rfl⟩
  have ht : (decDigits n ++ [59]).takeWhile isDigitN = d :: ds := by
    rw [takeWhile_append_stop isDigitN (decDigits n) 59 [] hall (by decide)]
    exact hds
  have hd : (decDigits n ++ [59]).dropWhile isDigitN = 59 :: [] :=
    dropWhile_append_stop isDigitN (decDigits n) 59 [] hall (by decide)
  unfold decNcr
  rw [decodeDecF_hash f (decDigits n ++ [59]) d ds [] ht hd, ← hds,
    parseDec_decDigits, decodeDecF_nil]

/-- Helper: the decimal pass is the identity on ampersand-free text. -/
theorem decodeDecF_no_amp (f : Nat) (s : JSs) (h : s.contains 38 = false) :
    decodeDecF f s = s := by
  induction s generalizing f with
  | nil => cases f <;> rfl
  | cons c r ih =>
    cases f with
    | zero => rfl
    | succ g =>
      have hc : c ≠ 38 := contains_false_head c 38 r h
      simp only [decodeDecF, if_neg hc]
      rw [ih g (contains_false_tail c 38 r h)]

/-- Helper: one step of the hex pass at a hash-x entity whose hex run and
closing semicolon are known. -/
theorem decodeHexF_hash (f x : Nat) (r2 : JSs) (d : Nat) (ds tail : JSs)
    (hx : lowerN x = 120)
    (ht : r2.takeWhile isHexDigitN = d :: ds)
    (hd : r2.dropWhile isHexDigitN = 59 :: tail) :
    decodeHexF (f + 1) (38 :: 35 :: x :: r2) =
      (parseHex (d :: ds) % 65536) :: decodeHexF f tail := by
  simp only [decodeHexF, eq_self_iff_true, if_true, hx, ht, hd]

/-- Helper: the hex pass resolves the rendered hex reference. -/
theorem decodeHexF_ncr (n f : Nat) :
    decodeHexF (f + 1) (hexNcr n) = [n % 65536] := by
  have hall : ∀ c ∈ hexDigits n, isHexDigitN c = true :=
    fun c hc => hexDigitsAux_all_hex (n + 1) n c hc
  obtain ⟨d, ds, hds⟩ : ∃ d ds, hexDigits n = d :: ds := by
    rcases hh : hexDigits n with - | ⟨d, ds⟩
    · exact absurd hh (hexDigits_ne_nil n)
    · exact ⟨d, ds, rfl⟩
  have ht : (hexDigits n ++ [59]).takeWhile isHexDigitN = d :: ds := by
    rw [takeWhile_append_stop isHexDigitN (hexDigits n) 59 [] hall
      (by decide)]
    exact hds
  have hd : (hexDigits n ++ [59]).dropWhile isHexDigitN = 59 :: [] :=
    dropWhile_append_stop isHexDigitN (hexDigits n) 59 [] hall (by decide)
  unfold hexNcr
  rw [decodeHexF_hash f 120 (hexDigits n ++ [59]) d ds [] rfl ht hd, ← hds,
    parseHex_hexDigits, decodeHexF_nil]

/-- Helper: the hex pass on a single unit. -/
theorem decodeHexF_one (c : Nat) : decodeHexF 1 [c] = [c] := by
  by_cases hc : c = 38
  · subst hc; rfl
  · simp [decodeHexF, hc]

/-- Helper: the apostrophe pass on a single unit. -/
theorem decodeAposF_one (c : Nat) : decodeAposF 1 [c] = [c] := by
  by_cases hc : c = 38
  · subst hc; rfl
  · simp [decodeAposF, hc]

/-- Helper: the quote pass on a single unit. -/
theorem decodeQuotF_one (c : Nat) : decodeQuotF 1 [c] = [c] := by
  by_cases hc : c = 38
  · subst hc; rfl
  · simp [decodeQuotF, hc]

/-- Helper: the ampersand pass on a single unit. -/
theorem decodeAmpF_one (c : Nat) : decodeAmpF 1 [c] = [c] := by
  by_cases hc : c = 38
  · subst hc; rfl
  · simp [decodeAmpF, hc]

/-- Helper: the decimal pass steps over a hash entity that does not open
with a digit. -/
theorem decodeDecF_amp_nodigit (f x : Nat) (r2 : JSs)
    (hx : isDigitN x = false) :
    decodeDecF (f + 1) (38 :: 35 :: x :: r2) =
      38 :: decodeDecF f (35 :: x :: r2) := by
  have ht : (x :: r2).takeWhile isDigitN = [] := by
    simp [List.takeWhile_cons, hx]
  simp only [decodeDecF, eq_self_iff_true, if_true, ht]

/-- Helper: digits are not semicolons. -/
theorem decDigits_ne_semi (n : Nat) : ∀ c ∈ decDigits n, c ≠ 59 := by
  intro c hc
  have hd := decDigitsAux_all_digit (n + 1) n c hc
  unfold isDigitN at hd
  simp at hd
  omega

/-- Helper: hex digits are not semicolons. -/
theorem hexDigits_ne_semi (n : Nat) : ∀ c ∈ hexDigits n, c ≠ 59 := by
  intro c hc
  have hd := hexDigitsAux_all_hex (n + 1) n c hc
  unfold isHexDigitN isDigitN at hd
  simp at hd
  omega

/-- Helper: the hex reference body contains no ampersand. -/
theorem hexNcr_body_no_amp (n : Nat) :
    (35 :: 120 :: (hexDigits n ++ [59]) : JSs).contains 38 = false := by
  have hmem : (38 : Nat) ∉ (35 :: 120 :: (hexDigits n ++ [59]) : JSs) := by
    simp
    intro h
    have hd := hexDigitsAux_all_hex (n + 1) n 38 h
    simp [isHexDigitN, isDigitN] at hd
  simpa using hmem

/-- C8 (amended): for every code point below 0x10000 the decoder resolves
the standalone decimal and hexadecimal numeric character references to
the single unit with that value; at and above 0x10000 it does not (see
the counterexample theorem), because `String.fromCharCode` truncates. -/
theorem decode_numeric_refs_bmp :
    ∀ n : Nat, n < 65536 →
      decodeHtmlEntities (decNcr n) = [n] ∧
        decodeHtmlEntities (hexNcr n) = [n] := by
  intro n hn
  have hmod : n % 65536 = n := Nat.mod_eq_of_lt hn
  constructor
  · obtain ⟨g, hg⟩ : ∃ g, (decNcr n).length = g + 1 :=
      ⟨(decDigits n ++ [59]).length + 1, by simp [decNcr]⟩
    have h1 : decodeNamedF (decNcr n).length (decNcr n) = decNcr n := by
      rw [hg]
      unfold decNcr
      exact decodeNamedF_hash (decDigits n) g (decDigits_ne_semi n)
    have h2 : decodeDecF (decNcr n).length (decNcr n) = [n] := by
      rw [hg, decodeDecF_ncr n g, hmod]
    simp only [decodeHtmlEntities]
    rw [h1, h2]
    simp only [show ([n] : JSs).length = 1 from rfl, decodeHexF_one,
      decodeAposF_one, decodeQuotF_one, decodeAmpF_one]
  · obtain ⟨g, hg⟩ : ∃ g, (hexNcr n).length = g + 1 :=
      ⟨(hexDigits n ++ [59]).length + 2, by simp [hexNcr]⟩
    have hhex59 : ∀ c ∈ (120 :: hexDigits n : JSs), c ≠ 59 := by
      intro c hc
      rcases List.mem_cons.mp hc with h | h
      · omega
      · exact hexDigits_ne_semi n c h
    have h1 : decodeNamedF (hexNcr n).length (hexNcr n) = hexNcr n := by
      rw [hg]
      have h := decodeNamedF_hash (120 :: hexDigits n) g hhex59
      simpa [hexNcr, List.cons_append] using h
    have h2 : decodeDecF (hexNcr n).length (hexNcr n) = hexNcr n := by
      rw [hg]
      unfold hexNcr
      rw [decodeDecF_amp_nodigit g 120 (hexDigits n ++ [59]) (by decide),
        decodeDecF_no_amp g _ (hexNcr_body_no_amp n)]
    have h3 : decodeHexF (hexNcr n).length (hexNcr n) = [n] := by
      rw [hg, decodeHexF_ncr n g, hmod]
    simp only [decodeHtmlEntities]
    rw [h1, h2, h3]
    simp only [show ([n] : JSs).length = 1 from rfl, decodeHexF_one,
      decodeAposF_one, decodeQuotF_one, decodeAmpF_one]

/-- Witness for the amended C8 at a concrete BMP code point (the snowman,
U+2603). -/
theorem decode_numeric_refs_bmp_witness :
    decodeHtmlEntities (decNcr 9731) = [9731] ∧
      decodeHtmlEntities (hexNcr 9731) = [9731] :=
  decode_numeric_refs_bmp 9731 (by decide)
